import Mathlib

/-!
Shallow embedding of the VMC-EigenHydrogen core simulation module
(`src/vmc_simulation/simulation.py`) over exact real arithmetic.

Python scalars handed to validated entry points are modelled by `PyVal`
(so `isinstance` checks are expressible); raised exceptions are modelled
by `Except Err`; `warnings.warn` calls are modelled by an accumulated
list of `Warn` values in the result.
-/

namespace VMC

/-- Model of a Python scalar argument, used where the source performs
`isinstance` checks (alpha in `trial_wavefunction`; the three step/walker
counts in `metropolis`). -/
inductive PyVal where
  | int (n : ℤ)
  | float (r : ℝ)
  | complex (re im : ℝ)
  | str (s : String)
  | list (xs : List ℝ)

/-- Python `isinstance(v, (int, float))`. -/
def PyVal.isRealNum : PyVal → Bool
  | .int _ => true
  | .float _ => true
  | _ => false

/-- Python `isinstance(v, int)`. -/
def PyVal.isInt : PyVal → Bool
  | .int _ => true
  | _ => false

/-- The numeric value carried by an `int` or `float`; junk on other
constructors, which the validated code paths never reach. -/
def PyVal.toReal : PyVal → ℝ
  | .int n => (n : ℝ)
  | .float r => r
  | _ => 0

/-- The integer value carried by an `int`; junk otherwise. -/
def PyVal.toInt : PyVal → ℤ
  | .int n => n
  | _ => 0

/-- The exceptions raised by the module, one constructor per distinct
`raise` site in `src/vmc_simulation/simulation.py`. -/
inductive Err where
  | typeAlpha          -- "Alpha must be a real number."  (TypeError)
  | alphaTooNegative   -- "Too large negative alpha ..."  (ValueError)
  | alphaTooLarge      -- "Too large alpha ..."           (ValueError)
  | valueLearningRate  -- "Learning rate must be ..."     (ValueError)
  | typeParams         -- "... must be integers."         (TypeError)
  | valueSteps         -- "numsteps and numwalkers ..."   (ValueError)
  | valueEquil         -- "equilibration_steps must ..."  (ValueError)
  | divByZero          -- "Division by zero detected in p calculation." (ValueError)
  deriving DecidableEq

/-- Which exception class (`TypeError`) a raised `Err` belongs to. -/
def Err.isTypeError : Err → Bool
  | .typeAlpha => true
  | .typeParams => true
  | _ => false

/-- Which exception class (`ValueError`) a raised `Err` belongs to. -/
def Err.isValueError : Err → Bool
  | .alphaTooNegative => true
  | .alphaTooLarge => true
  | .valueLearningRate => true
  | .valueSteps => true
  | .valueEquil => true
  | .divByZero => true
  | _ => false

/-- The non-fatal `warnings.warn` calls of the module. -/
inductive Warn where
  | eqStepsZero   -- "equilibration_steps is set to 0. ..."
  | lrZero        -- "The learning rate is set to 0. ..."
  deriving DecidableEq

/-- The elementwise value computed by `np.where(x > 0, np.exp(-alpha * x), 0)`. -/
noncomputable def wfVal (alpha x : ℝ) : ℝ :=
  if 0 < x then Real.exp (-alpha * x) else 0

/-- The array produced by `np.where(x > 0, np.exp(-alpha * x), 0)`. -/
noncomputable def wfVals (x : List ℝ) (alpha : ℝ) : List ℝ :=
  x.map (wfVal alpha)

/-- `trial_wavefunction(x, alpha)` from `src/vmc_simulation/simulation.py`:
validates that `alpha` is a real number (TypeError otherwise), then that
`alpha` is not below -1000 nor above 200 (ValueError otherwise), then
returns `np.where(x > 0, np.exp(-alpha * x), 0)`. -/
noncomputable def trial_wavefunction (x : List ℝ) (alpha : PyVal) :
    Except Err (List ℝ) :=
  if ¬ alpha.isRealNum then .error .typeAlpha
  else if alpha.toReal < -1000 then .error .alphaTooNegative
  else if 200 < alpha.toReal then .error .alphaTooLarge
  else .ok (wfVals x alpha.toReal)

/-- `local_energy_func(x, alpha)` from `src/vmc_simulation/simulation.py`:
`-1 / x - (alpha**2) / 2 + alpha / x`, elementwise, with no validation of
`x` and no possibility of a raised error. -/
noncomputable def local_energy_func (x : List ℝ) (alpha : ℝ) : List ℝ :=
  x.map (fun xi => -1 / xi - alpha ^ 2 / 2 + alpha / xi)

/-- `np.mean` of a one-dimensional array. -/
noncomputable def mean (xs : List ℝ) : ℝ :=
  xs.sum / xs.length

/-- `dE_dalpha(x, alpha)` from `src/vmc_simulation/simulation.py`:
`El = local_energy_func(x, alpha)`, `ln_wf = -x`, and the result is
`2 * (np.mean(El * ln_wf) - np.mean(El) * np.mean(ln_wf))`. -/
noncomputable def dE_dalpha (x : List ℝ) (alpha : ℝ) : ℝ :=
  let El := local_energy_func x alpha
  let ln_wf := x.map (fun xi => -xi)
  2 * (mean (List.zipWith (fun a b => a * b) El ln_wf) -
        mean El * mean ln_wf)

/-- `alpha_opt_on_fly(position_vec, alpha, learning_rate)` from
`src/vmc_simulation/simulation.py`: raises ValueError when the learning
rate is negative, warns (non-fatally) when it is zero, then returns
`(alpha - learning_rate * dE_da, dE_da)`. The warning side channel is
modelled as a list of `Warn` values in the result. -/
noncomputable def alpha_opt_on_fly (position_vec : List ℝ)
    (alpha learning_rate : ℝ) : Except Err ((ℝ × ℝ) × List Warn) :=
  if learning_rate < 0 then .error .valueLearningRate
  else
    let warns := if learning_rate = 0 then [Warn.lrZero] else []
    let dE_da := dE_dalpha position_vec alpha
    .ok ((alpha - learning_rate * dE_da, dE_da), warns)

/-- The process-wide random source `np.random`, made explicit: `init k` is
the `np.random.uniform(low=2, high=3, ...)` draw for walker `k` at
initialization; `gauss j i k` is the `np.random.randn` draw for walker `k`
in equilibration sweep `i` of outer step `j`; `unif j i k` is the
`np.random.uniform` acceptance draw at the same point. -/
structure RNG where
  init : ℕ → ℝ
  gauss : ℕ → ℕ → ℕ → ℝ
  unif : ℕ → ℕ → ℕ → ℝ

/-- `position_vec + 0.1 * np.random.randn(numwalkers)`: the proposed
positions of sweep `i` of outer step `j`. -/
def propose (rng : RNG) (j i : ℕ) (position_vec : List ℝ) : List ℝ :=
  List.zipWith (fun k p => p + 0.1 * rng.gauss j i k)
    (List.range position_vec.length) position_vec

/-- One equilibration sweep of `metropolis` (the body of the inner
`for i in range(equilibration_steps)` loop): propose displaced positions,
evaluate the wavefunction at current and proposed positions, raise
ValueError if any current-position (denominator) value is zero, otherwise
form `p = numerator / denominator` and keep the proposal exactly where
`p` exceeds the per-walker uniform draw. -/
noncomputable def oneSweep (rng : RNG) (alpha : ℝ) (j i : ℕ)
    (position_vec : List ℝ) : Except Err (List ℝ) := do
  let new_position_vec := propose rng j i position_vec
  let denominator ← trial_wavefunction position_vec (.float alpha)
  let numerator ← trial_wavefunction new_position_vec (.float alpha)
  if (0 : ℝ) ∈ denominator then
    .error .divByZero
  else
    let p := List.zipWith (fun a b => a / b) numerator denominator
    let rand_unif_array := (List.range p.length).map (rng.unif j i)
    .ok (List.zipWith (fun pu no => if pu.2 < pu.1 then no.1 else no.2)
          (p.zip rand_unif_array) (new_position_vec.zip position_vec))

/-- The inner equilibration loop, iterating `oneSweep` from sweep index
`i` for `rem` more sweeps. -/
noncomputable def sweepsAux (rng : RNG) (alpha : ℝ) (j : ℕ) :
    ℕ → ℕ → List ℝ → Except Err (List ℝ)
  | _, 0, position_vec => .ok position_vec
  | i, rem + 1, position_vec => do
      let position_vec' ← oneSweep rng alpha j i position_vec
      sweepsAux rng alpha j (i + 1) rem position_vec'

/-- `for i in range(equilibration_steps)`: run the equilibration sweeps of
outer step `j`. -/
noncomputable def equilibrate (rng : RNG) (alpha : ℝ)
    (j equilibration_steps : ℕ) (position_vec : List ℝ) :
    Except Err (List ℝ) :=
  sweepsAux rng alpha j 0 equilibration_steps position_vec

/-- The Orchestrator's loop state: the walker ensemble, the current alpha,
the three trajectory buffers (written at one index per outer step, modelled
by appending in order), and the warnings issued so far. -/
structure OuterState where
  position_vec : List ℝ
  alpha : ℝ
  alpha_buffer : List ℝ
  dE_da_buffer : List ℝ
  E_buffer : List ℝ
  warns : List Warn

/-- The outer measurement loop of `metropolis` (the body of
`for j in tqdm(range(numsteps))`), iterated from outer index `j` for `rem`
more steps: equilibrate, take one optimizer step, record alpha, the
gradient, and the mean local energy. -/
noncomputable def outerAux (rng : RNG) (equilibration_steps : ℕ)
    (learning_rate : ℝ) : ℕ → ℕ → OuterState → Except Err OuterState
  | _, 0, s => .ok s
  | j, rem + 1, s => do
      let position_vec ← equilibrate rng s.alpha j equilibration_steps s.position_vec
      let res ← alpha_opt_on_fly position_vec s.alpha learning_rate
      outerAux rng equilibration_steps learning_rate (j + 1) rem
        { position_vec := position_vec
          alpha := res.1.1
          alpha_buffer := s.alpha_buffer ++ [res.1.1]
          dE_da_buffer := s.dE_da_buffer ++ [res.1.2]
          E_buffer := s.E_buffer ++ [mean (local_energy_func position_vec res.1.1)]
          warns := s.warns ++ res.2 }

/-- What `metropolis` returns on success. -/
structure MetroResult where
  position_vec : List ℝ
  alpha : ℝ
  alpha_buffer : List ℝ
  E_buffer : List ℝ
  dE_da_buffer : List ℝ
  initial_pos : List ℝ
  warns : List Warn

/-- `metropolis(equilibration_steps, numsteps, numwalkers, alpha,
learning_rate)` from `src/vmc_simulation/simulation.py`: validate that the
three counts are integers (TypeError), that `numsteps` and `numwalkers`
are positive and `equilibration_steps` non-negative (ValueError), warn
when `equilibration_steps == 0`, initialize the walkers from uniform
draws in `[2, 3)` (here: `rng.init`), then run the nested
equilibration/measurement loops. -/
noncomputable def metropolis (rng : RNG)
    (equilibration_steps numsteps numwalkers : PyVal)
    (alpha learning_rate : ℝ) : Except Err MetroResult :=
  if ¬ (equilibration_steps.isInt ∧ numsteps.isInt ∧ numwalkers.isInt) then
    .error .typeParams
  else
    let eqN := equilibration_steps.toInt
    let nsN := numsteps.toInt
    let nwN := numwalkers.toInt
    if nsN ≤ 0 ∨ nwN ≤ 0 then .error .valueSteps
    else if eqN < 0 then .error .valueEquil
    else
      let warns0 := if eqN = 0 then [Warn.eqStepsZero] else []
      let initial_pos := (List.range nwN.toNat).map rng.init
      (outerAux rng eqN.toNat learning_rate 0 nsN.toNat
        { position_vec := initial_pos, alpha := alpha,
          alpha_buffer := [], dE_da_buffer := [], E_buffer := [],
          warns := warns0 }).map
        (fun s => { position_vec := s.position_vec, alpha := s.alpha,
                    alpha_buffer := s.alpha_buffer, E_buffer := s.E_buffer,
                    dE_da_buffer := s.dE_da_buffer,
                    initial_pos := initial_pos, warns := s.warns })

/-- Population covariance of two samples, in the centered form
`mean ((a - mean a) * (b - mean b))`; used to compare `dE_dalpha` with
the covariance identity the specification states. -/
noncomputable def covariance (a b : List ℝ) : ℝ :=
  mean (List.zipWith (fun x y => (x - mean a) * (y - mean b)) a b)

/-- Modelled from the spec: `src/vmc_simulation/simulation.py` has no
proposal routine parameterized by a step size — `metropolis` hardcodes
the displacement scale 0.1 even though its caller `main.py` passes a
sixth `step_size` argument. This definition follows the spec's words:
"propose a new position per walker by adding an independent zero-mean
Gaussian displacement scaled by the step size". -/
def proposeWithStepSize (rng : RNG) (step_size : ℝ) (j i : ℕ)
    (position_vec : List ℝ) : List ℝ :=
  List.zipWith (fun k p => p + step_size * rng.gauss j i k)
    (List.range position_vec.length) position_vec

/-- Random source whose every initial draw sits at the nonpositive
position 0, driving the first equilibration sweep into the
division-by-zero error branch. -/
def zeroInitRNG : RNG :=
  { init := fun _ => 0, gauss := fun _ _ _ => 0, unif := fun _ _ _ => 0 }

/-- Random source with all initial draws at position 2, vanishing
Gaussian displacements, and acceptance draws at 0; it satisfies the
distributional range constraints `init ∈ [2, 3)` and `unif ∈ [0, 1)`. -/
def constRNG : RNG :=
  { init := fun _ => 2, gauss := fun _ _ _ => 0, unif := fun _ _ _ => 0 }

/-- Random source whose Gaussian draws are all 1, used to exhibit the
hardcoded 0.1 proposal scale. -/
def gaussOneRNG : RNG :=
  { init := fun _ => 2, gauss := fun _ _ _ => 1, unif := fun _ _ _ => 0 }

/-- With alpha in the accepted range, `trial_wavefunction` succeeds and
returns the elementwise array. -/
theorem trial_wavefunction_ok (x : List ℝ) (a : ℝ)
    (h1 : -1000 ≤ a) (h2 : a ≤ 200) :
    trial_wavefunction x (.float a) = .ok (wfVals x a) := by
  simp [trial_wavefunction, PyVal.isRealNum, PyVal.toReal,
    not_lt.2 h1, not_lt.2 h2]

/-- Claim C1: for every position list `x` and every alpha in the accepted
range, `trial_wavefunction` returns (rather than raises) a list of the
same length as `x` whose i-th element is `exp (-alpha * x i)` when
`x i > 0` and `0` when `x i ≤ 0` (including exactly at `x i = 0`). -/
theorem wavefunction_values_spec (x : List ℝ) (a : ℝ)
    (h1 : -1000 ≤ a) (h2 : a ≤ 200) :
    ∃ ys, trial_wavefunction x (.float a) = .ok ys ∧
      ys.length = x.length ∧
      ∀ i, i < x.length →
        (0 < x.getD i 0 → ys.getD i 0 = Real.exp (-a * x.getD i 0)) ∧
        (x.getD i 0 ≤ 0 → ys.getD i 0 = 0) := by
  refine ⟨wfVals x a, trial_wavefunction_ok x a h1 h2, by simp [wfVals], ?_⟩
  intro i hi
  have hi' : i < (wfVals x a).length := by simpa [wfVals] using hi
  have hx : x.getD i 0 = x[i] := List.getD_eq_getElem x 0 hi
  have hy : (wfVals x a).getD i 0 = wfVal a x[i] := by
    rw [List.getD_eq_getElem _ 0 hi']
    simp [wfVals]
  refine ⟨fun h => ?_, fun h => ?_⟩
  · rw [hy, wfVal, if_pos (hx ▸ h), hx]
  · rw [hy, wfVal, if_neg (not_lt.2 (hx ▸ h))]

/-- Concrete instance of claim C1 at `x = [1, 0, -2]`, `alpha = 3`. -/
theorem wavefunction_values_witness :
    ∃ ys, trial_wavefunction [1, 0, -2] (.float 3) = .ok ys ∧
      ys.length = ([1, 0, -2] : List ℝ).length ∧
      ∀ i, i < ([1, 0, -2] : List ℝ).length →
        (0 < ([1, 0, -2] : List ℝ).getD i 0 →
          ys.getD i 0 = Real.exp (-3 * ([1, 0, -2] : List ℝ).getD i 0)) ∧
        (([1, 0, -2] : List ℝ).getD i 0 ≤ 0 → ys.getD i 0 = 0) :=
  wavefunction_values_spec [1, 0, -2] 3 (by norm_num) (by norm_num)

/-- Claim C2: `trial_wavefunction` raises a TypeError whenever alpha is
not a real number (complex, string, list, ...), and a ValueError whenever
alpha is a real number below -1000 or above 200; in every such case the
result is an error, so no exponential value is ever produced. -/
theorem wavefunction_validation_spec (x : List ℝ) (v : PyVal) :
    (v.isRealNum = false →
      trial_wavefunction x v = .error .typeAlpha ∧
        Err.typeAlpha.isTypeError = true) ∧
    (v.isRealNum = true → v.toReal < -1000 →
      trial_wavefunction x v = .error .alphaTooNegative ∧
        Err.alphaTooNegative.isValueError = true) ∧
    (v.isRealNum = true → 200 < v.toReal →
      trial_wavefunction x v = .error .alphaTooLarge ∧
        Err.alphaTooLarge.isValueError = true) := by
  refine ⟨fun h => ⟨?_, rfl⟩, fun hr h => ⟨?_, rfl⟩, fun hr h => ⟨?_, rfl⟩⟩
  · simp [trial_wavefunction, h]
  · simp [trial_wavefunction, h, hr]
  · have h' : ¬ v.toReal < -1000 := by linarith
    simp [trial_wavefunction, h, h', hr]

/-- Concrete instances of claim C2: a string alpha raises TypeError, and
the float alphas -1001 and 201 raise ValueError. -/
theorem wavefunction_validation_witness :
    trial_wavefunction [1] (.str "a") = .error .typeAlpha ∧
    trial_wavefunction [1] (.float (-1001)) = .error .alphaTooNegative ∧
    trial_wavefunction [1] (.float 201) = .error .alphaTooLarge :=
  ⟨((wavefunction_validation_spec [1] (.str "a")).1 rfl).1,
   ((wavefunction_validation_spec [1] (.float (-1001))).2.1 rfl
      (by norm_num [PyVal.toReal])).1,
   ((wavefunction_validation_spec [1] (.float 201)).2.2 rfl
      (by norm_num [PyVal.toReal])).1⟩

/-- Claim C3: `local_energy_func` always returns a list of the same
length as its input — it is a total function with no validation and no
raised error, even when some position is zero — and at every index whose
position is nonzero the value is `-1/x - alpha^2/2 + alpha/x`. -/
theorem local_energy_spec (x : List ℝ) (a : ℝ) :
    (local_energy_func x a).length = x.length ∧
    ∀ i, i < x.length → x.getD i 0 ≠ 0 →
      (local_energy_func x a).getD i 0 =
        -1 / x.getD i 0 - a ^ 2 / 2 + a / x.getD i 0 := by
  refine ⟨by simp [local_energy_func], fun i hi _ => ?_⟩
  have hi' : i < (local_energy_func x a).length := by
    simpa [local_energy_func] using hi
  rw [List.getD_eq_getElem _ 0 hi', List.getD_eq_getElem x 0 hi]
  simp [local_energy_func]

/-- Concrete instance of claim C3 at `x = [2, 0]`, `alpha = 3`: full
length even with a zero position present, and the closed form at the
nonzero position. -/
theorem local_energy_witness :
    (local_energy_func [2, 0] 3).length = 2 ∧
    (local_energy_func [2, 0] 3).getD 0 0 = -1 / 2 - 3 ^ 2 / 2 + 3 / 2 := by
  have h := local_energy_spec [2, 0] 3
  refine ⟨by simpa using h.1, ?_⟩
  have h2 := h.2 0 (by norm_num) (by norm_num)
  simpa using h2

/-- Expanding the centered product sum over two equal-length samples. -/
theorem sum_zipWith_center (c d : ℝ) (a : List ℝ) :
    ∀ b : List ℝ, a.length = b.length →
      (List.zipWith (fun x y => (x - c) * (y - d)) a b).sum =
        (List.zipWith (fun x y => x * y) a b).sum
          - c * b.sum - d * a.sum + a.length * (c * d) := by
  induction a with
  | nil =>
      intro b h
      obtain rfl : b = [] := by
        cases b with
        | nil => rfl
        | cons y b => simp at h
      simp
  | cons x a ih =>
      intro b h
      cases b with
      | nil => simp at h
      | cons y b =>
          have ihb := ih b (by simpa using h)
          simp only [List.zipWith_cons_cons, List.sum_cons, List.length_cons]
          rw [ihb]
          push_cast
          ring

/-- The covariance in centered form equals the mean of products minus the
product of means, for non-empty equal-length samples. -/
theorem covariance_eq (a b : List ℝ) (h : a.length = b.length)
    (hne : a ≠ []) :
    covariance a b =
      mean (List.zipWith (fun x y => x * y) a b) - mean a * mean b := by
  have hn : (a.length : ℝ) ≠ 0 := by
    have := List.length_pos.2 hne
    exact_mod_cast this.ne'
  have key := sum_zipWith_center (mean a) (mean b) a b h
  simp only [mean] at key
  simp only [covariance, mean]
  rw [key, List.length_zipWith, List.length_zipWith, ← h, Nat.min_self]
  field_simp
  ring

/-- Claim C4: for every non-empty position list and every alpha,
`dE_dalpha` equals `2 * (mean (El * L) - mean El * mean L)` where
`El = local_energy_func x alpha` and `L = -x` is the log-derivative of
the trial wavefunction with respect to alpha — and this is exactly twice
the covariance of `El` and `L` over the ensemble. -/
theorem dE_dalpha_cov_spec (x : List ℝ) (a : ℝ) (hx : x ≠ []) :
    dE_dalpha x a =
      2 * (mean (List.zipWith (fun p q => p * q)
              (local_energy_func x a) (x.map (fun xi => -xi))) -
            mean (local_energy_func x a) * mean (x.map (fun xi => -xi))) ∧
    dE_dalpha x a =
      2 * covariance (local_energy_func x a) (x.map (fun xi => -xi)) := by
  have hlen : (local_energy_func x a).length = (x.map (fun xi => -xi)).length := by
    simp [local_energy_func]
  have hne : local_energy_func x a ≠ [] := by
    simp [local_energy_func, hx]
  have hcov := covariance_eq (local_energy_func x a) (x.map (fun xi => -xi))
    hlen hne
  exact ⟨rfl, by rw [hcov]; rfl⟩

/-- Concrete instance of claim C4 at `x = [1, 2]`, `alpha = 2`. -/
theorem dE_dalpha_cov_witness :
    dE_dalpha [1, 2] 2 =
      2 * (mean (List.zipWith (fun p q => p * q)
              (local_energy_func [1, 2] 2)
              (([1, 2] : List ℝ).map (fun xi => -xi))) -
            mean (local_energy_func [1, 2] 2) *
              mean (([1, 2] : List ℝ).map (fun xi => -xi))) ∧
    dE_dalpha [1, 2] 2 =
      2 * covariance (local_energy_func [1, 2] 2)
            (([1, 2] : List ℝ).map (fun xi => -xi)) :=
  dE_dalpha_cov_spec [1, 2] 2 (by simp)

/-- Claim C5: `alpha_opt_on_fly` raises ValueError on a negative learning
rate; on a zero learning rate it returns `(alpha, gradient)` with alpha
unchanged together with the non-fatal warning; and for every accepted
learning rate it returns `(alpha - learning_rate * gradient, gradient)`
with the gradient computed by `dE_dalpha`. It is a pure function of its
arguments. -/
theorem alpha_opt_spec (pos : List ℝ) (alpha lr : ℝ) :
    (lr < 0 →
      alpha_opt_on_fly pos alpha lr = .error .valueLearningRate ∧
        Err.valueLearningRate.isValueError = true) ∧
    (lr = 0 →
      alpha_opt_on_fly pos alpha lr =
        .ok ((alpha, dE_dalpha pos alpha), [Warn.lrZero])) ∧
    (0 ≤ lr →
      alpha_opt_on_fly pos alpha lr =
        .ok ((alpha - lr * dE_dalpha pos alpha, dE_dalpha pos alpha),
             if lr = 0 then [Warn.lrZero] else [])) := by
  refine ⟨fun h => ⟨by simp [alpha_opt_on_fly, h], rfl⟩, fun h => ?_, fun h => ?_⟩
  · subst h
    simp [alpha_opt_on_fly]
  · simp [alpha_opt_on_fly, not_lt.2 h]

/-- Concrete instances of claim C5: rejection at learning rate -1, the
warning no-op at learning rate 0, and the descent update at learning
rate 1. -/
theorem alpha_opt_witness :
    alpha_opt_on_fly [1] 1 (-1) = .error .valueLearningRate ∧
    alpha_opt_on_fly [1] 1 0 = .ok ((1, dE_dalpha [1] 1), [Warn.lrZero]) ∧
    alpha_opt_on_fly [1] 1 1 =
      .ok ((1 - 1 * dE_dalpha [1] 1, dE_dalpha [1] 1),
           if (1 : ℝ) = 0 then [Warn.lrZero] else []) :=
  ⟨((alpha_opt_spec [1] 1 (-1)).1 (by norm_num)).1,
   (alpha_opt_spec [1] 1 0).2.1 rfl,
   (alpha_opt_spec [1] 1 1).2.2 (by norm_num)⟩

/-- The gradient estimator at the ensemble `[1, 2]` with alpha 2
evaluates to the positive value 1/4. -/
theorem dE_dalpha_one_two : dE_dalpha [1, 2] 2 = 1 / 4 := by
  simp only [dE_dalpha, local_energy_func, mean, List.map_cons, List.map_nil,
    List.zipWith_cons_cons, List.zipWith_nil_right, List.sum_cons,
    List.sum_nil, List.length_cons, List.length_nil]
  norm_num

/-- Counterexample to claim C9 as stated: at the ensemble `[1, 2]` with
alpha 2 the gradient is positive, and the learning rate 0 is accepted by
the optimizer (with a warning), yet the returned alpha equals the input
alpha rather than being smaller. -/
theorem alpha_opt_lr_zero_counterexample :
    0 < dE_dalpha [1, 2] 2 ∧
    alpha_opt_on_fly [1, 2] 2 0 =
      .ok ((2, dE_dalpha [1, 2] 2), [Warn.lrZero]) ∧
    ¬ (2 : ℝ) < 2 := by
  refine ⟨by rw [dE_dalpha_one_two]; norm_num, ?_, by norm_num⟩
  simp [alpha_opt_on_fly]

/-- Claim C9 amended: for every ensemble and alpha with a positive
gradient, and every strictly positive learning rate, the optimizer's
update strictly reduces alpha (at learning rate 0, which the optimizer
also accepts, alpha is unchanged — see the counterexample). -/
theorem gradient_step_decreases_alpha (pos : List ℝ) (alpha lr : ℝ)
    (hlr : 0 < lr) (hg : 0 < dE_dalpha pos alpha) :
    ∃ res, alpha_opt_on_fly pos alpha lr = .ok res ∧
      res.1.1 < alpha ∧ res.1.2 = dE_dalpha pos alpha := by
  refine ⟨((alpha - lr * dE_dalpha pos alpha, dE_dalpha pos alpha), []),
    ?_, ?_, rfl⟩
  · simp [alpha_opt_on_fly, not_lt.2 hlr.le, hlr.ne']
  · have hpos : 0 < lr * dE_dalpha pos alpha := mul_pos hlr hg
    show alpha - lr * dE_dalpha pos alpha < alpha
    linarith

/-- Concrete instance of amended claim C9 at `x = [1, 2]`, `alpha = 2`,
learning rate 1. -/
theorem gradient_step_decreases_alpha_witness :
    ∃ res, alpha_opt_on_fly [1, 2] 2 1 = .ok res ∧
      res.1.1 < 2 ∧ res.1.2 = dE_dalpha [1, 2] 2 :=
  gradient_step_decreases_alpha [1, 2] 2 1 (by norm_num)
    (by rw [dE_dalpha_one_two]; norm_num)

/-- The wavefunction value at a strictly positive position is strictly
positive. -/
theorem wfVal_pos (a x : ℝ) (hx : 0 < x) : 0 < wfVal a x := by
  rw [wfVal, if_pos hx]
  exact Real.exp_pos _

/-- A nonpositive position makes the wavefunction value exactly zero. -/
theorem wfVal_nonpos (a x : ℝ) (hx : ¬ 0 < x) : wfVal a x = 0 := by
  rw [wfVal, if_neg hx]

/-- With all positions strictly positive, zero does not occur among the
wavefunction values. -/
theorem zero_not_mem_wfVals (pos : List ℝ) (a : ℝ)
    (h : ∀ x ∈ pos, 0 < x) : (0 : ℝ) ∉ wfVals pos a := by
  intro h0
  rw [wfVals, List.mem_map] at h0
  obtain ⟨x, hx, hval⟩ := h0
  exact absurd hval (ne_of_gt (wfVal_pos a x (h x hx)))

/-- A nonpositive position contributes a zero wavefunction value. -/
theorem zero_mem_wfVals (pos : List ℝ) (a : ℝ) (x : ℝ) (hx : x ∈ pos)
    (hx0 : x ≤ 0) : (0 : ℝ) ∈ wfVals pos a := by
  rw [wfVals, List.mem_map]
  exact ⟨x, hx, wfVal_nonpos a x (not_lt.2 hx0)⟩

/-- An equilibration sweep whose current-position wavefunction values
contain an exact zero raises the division-by-zero ValueError (for alpha
in the accepted range, so that the two wavefunction evaluations
themselves succeed). -/
theorem oneSweep_divzero (rng : RNG) (a : ℝ) (j i : ℕ) (pos : List ℝ)
    (h1 : -1000 ≤ a) (h2 : a ≤ 200) (h0 : (0 : ℝ) ∈ wfVals pos a) :
    oneSweep rng a j i pos = .error .divByZero := by
  rw [oneSweep, trial_wavefunction_ok _ a h1 h2,
    trial_wavefunction_ok _ a h1 h2]
  simp only [bind, Except.bind]
  rw [if_pos h0]

/-- A sweep error aborts the remaining equilibration sweeps with the same
error. -/
theorem sweepsAux_error (rng : RNG) (a : ℝ) (j i rem : ℕ)
    (pos : List ℝ) (e : Err) (h : oneSweep rng a j i pos = .error e) :
    sweepsAux rng a j (i) (rem + 1) pos = .error e := by
  rw [sweepsAux, h]
  rfl

/-- An equilibration error aborts the remaining outer steps with the same
error. -/
theorem outerAux_error (rng : RNG) (eqs : ℕ) (lr : ℝ) (j rem : ℕ)
    (s : OuterState) (e : Err)
    (h : equilibrate rng s.alpha j eqs s.position_vec = .error e) :
    outerAux rng eqs lr j (rem + 1) s = .error e := by
  rw [outerAux, h]
  rfl

/-- Claim C7: if during an equilibration sweep any current-position
wavefunction value is exactly zero, the sweep fails immediately with the
division-by-zero ValueError — before the acceptance ratio is formed —
and the whole run aborts with that error, returning no partial results:
concretely, for any integer inputs passing validation with at least one
equilibration sweep, an initial draw at a nonpositive position makes
`metropolis` return exactly `Except.error Err.divByZero`. -/
theorem divzero_abort_spec :
    Err.divByZero.isValueError = true ∧
    (∀ (rng : RNG) (a : ℝ) (j i : ℕ) (pos : List ℝ),
      -1000 ≤ a → a ≤ 200 → (0 : ℝ) ∈ wfVals pos a →
      oneSweep rng a j i pos = .error .divByZero) ∧
    (∀ (rng : RNG) (e n m : ℤ) (a lr : ℝ) (k0 : ℕ),
      0 < e → 0 < n → 0 < m → k0 < m.toNat → rng.init k0 ≤ 0 →
      -1000 ≤ a → a ≤ 200 →
      metropolis rng (.int e) (.int n) (.int m) a lr = .error .divByZero) := by
  refine ⟨rfl, fun rng a j i pos h1 h2 h0 =>
    oneSweep_divzero rng a j i pos h1 h2 h0, ?_⟩
  intro rng e n m a lr k0 he hn hm hk0 hinit h1 h2
  obtain ⟨l, hl⟩ : ∃ l, e.toNat = l + 1 := ⟨e.toNat - 1, by omega⟩
  obtain ⟨k, hknat⟩ : ∃ k, n.toNat = k + 1 := ⟨n.toNat - 1, by omega⟩
  have hmem : (0 : ℝ) ∈ wfVals ((List.range m.toNat).map rng.init) a := by
    refine zero_mem_wfVals _ a (rng.init k0) ?_ hinit
    exact List.mem_map.2 ⟨k0, List.mem_range.2 hk0, rfl⟩
  have hsweep : oneSweep rng a 0 0 ((List.range m.toNat).map rng.init) =
      .error .divByZero :=
    oneSweep_divzero rng a 0 0 _ h1 h2 hmem
  have hequil : equilibrate rng a 0 e.toNat ((List.range m.toNat).map rng.init) =
      .error .divByZero := by
    rw [equilibrate, hl]
    exact sweepsAux_error rng a 0 0 l _ .divByZero hsweep
  rw [metropolis]
  rw [if_neg (by simp [PyVal.isInt])]
  simp only [PyVal.toInt]
  rw [if_neg (show ¬ (n ≤ 0 ∨ m ≤ 0) by omega), if_neg (show ¬ e < 0 by omega)]
  have hout : outerAux rng e.toNat lr 0 n.toNat
      { position_vec := (List.range m.toNat).map rng.init, alpha := a,
        alpha_buffer := [], dE_da_buffer := [], E_buffer := [],
        warns := if e = 0 then [Warn.eqStepsZero] else [] } =
      .error .divByZero := by
    rw [hknat]
    exact outerAux_error rng e.toNat lr 0 k _ .divByZero hequil
  rw [hout]
  rfl

/-- With zero equilibration sweeps and an accepted learning rate, the
outer measurement loop always succeeds and appends exactly one entry per
outer step to each trajectory buffer, keeping every previously issued
warning. -/
theorem outerAux_eqzero_ok (rng : RNG) (lr : ℝ) (hlr : 0 ≤ lr) :
    ∀ (rem j : ℕ) (s : OuterState),
      ∃ s', outerAux rng 0 lr j rem s = .ok s' ∧
        s'.alpha_buffer.length = s.alpha_buffer.length + rem ∧
        s'.dE_da_buffer.length = s.dE_da_buffer.length + rem ∧
        s'.E_buffer.length = s.E_buffer.length + rem ∧
        ∀ w ∈ s.warns, w ∈ s'.warns := by
  intro rem
  induction rem with
  | zero =>
      intro j s
      exact ⟨s, rfl, by omega, by omega, by omega, fun w hw => hw⟩
  | succ rem ih =>
      intro j s
      have hequil : equilibrate rng s.alpha j 0 s.position_vec =
          .ok s.position_vec := rfl
      have hopt := (alpha_opt_spec s.position_vec s.alpha lr).2.2 hlr
      rw [outerAux, hequil]
      simp only [bind, Except.bind]
      rw [hopt]
      obtain ⟨s', hs', hla, hld, hle, hw⟩ := ih (j + 1)
        { position_vec := s.position_vec
          alpha := s.alpha - lr * dE_dalpha s.position_vec s.alpha
          alpha_buffer := s.alpha_buffer ++
            [s.alpha - lr * dE_dalpha s.position_vec s.alpha]
          dE_da_buffer := s.dE_da_buffer ++ [dE_dalpha s.position_vec s.alpha]
          E_buffer := s.E_buffer ++ [mean (local_energy_func s.position_vec
            (s.alpha - lr * dE_dalpha s.position_vec s.alpha))]
          warns := s.warns ++ (if lr = 0 then [Warn.lrZero] else []) }
      refine ⟨s', hs', ?_, ?_, ?_, ?_⟩
      · simp only [List.length_append, List.length_cons, List.length_nil] at hla
        omega
      · simp only [List.length_append, List.length_cons, List.length_nil] at hld
        omega
      · simp only [List.length_append, List.length_cons, List.length_nil] at hle
        omega
      · intro w hw'
        exact hw w (List.mem_append_left _ hw')

/-- Claim C6: `metropolis` validates eagerly, independently of the random
source (the quantified `rng` never influences which validation error is
raised): a TypeError when any of the three counts is not an integer, a
ValueError when `numsteps` or `numwalkers` is nonpositive or when
`equilibration_steps` is negative; and with `equilibration_steps = 0`
(and otherwise accepted inputs) the run warns non-fatally, proceeds, and
returns trajectories of length `numsteps`. -/
theorem metropolis_validation_spec (rng : RNG)
    (eqs ns nw : PyVal) (alpha lr : ℝ) :
    (¬ (eqs.isInt = true ∧ ns.isInt = true ∧ nw.isInt = true) →
      metropolis rng eqs ns nw alpha lr = .error .typeParams ∧
        Err.typeParams.isTypeError = true) ∧
    ((eqs.isInt = true ∧ ns.isInt = true ∧ nw.isInt = true) →
      (ns.toInt ≤ 0 ∨ nw.toInt ≤ 0) →
      metropolis rng eqs ns nw alpha lr = .error .valueSteps ∧
        Err.valueSteps.isValueError = true) ∧
    ((eqs.isInt = true ∧ ns.isInt = true ∧ nw.isInt = true) →
      0 < ns.toInt → 0 < nw.toInt → eqs.toInt < 0 →
      metropolis rng eqs ns nw alpha lr = .error .valueEquil ∧
        Err.valueEquil.isValueError = true) ∧
    (∀ n m : ℤ, eqs = .int 0 → ns = .int n → nw = .int m →
      0 < n → 0 < m → 0 ≤ lr →
      ∃ r, metropolis rng eqs ns nw alpha lr = .ok r ∧
        Warn.eqStepsZero ∈ r.warns ∧
        r.alpha_buffer.length = n.toNat ∧
        r.dE_da_buffer.length = n.toNat ∧
        r.E_buffer.length = n.toNat) := by
  refine ⟨fun h => ⟨?_, rfl⟩, fun h1 h2 => ⟨?_, rfl⟩,
    fun h1 h2 h3 h4 => ⟨?_, rfl⟩, ?_⟩
  · rw [metropolis, if_pos h]
  · rw [metropolis, if_neg (not_not_intro h1), if_pos h2]
  · rw [metropolis, if_neg (not_not_intro h1),
      if_neg (show ¬ (ns.toInt ≤ 0 ∨ nw.toInt ≤ 0) by omega), if_pos h4]
  · intro n m he hn hm hnpos hmpos hlr
    subst he hn hm
    rw [metropolis]
    rw [if_neg (by simp [PyVal.isInt])]
    simp only [PyVal.toInt]
    rw [if_neg (show ¬ ((n : ℤ) ≤ 0 ∨ (m : ℤ) ≤ 0) by omega),
      if_neg (show ¬ (0 : ℤ) < 0 by omega)]
    simp only [if_true]
    obtain ⟨s', hs', hla, hld, hle, hw⟩ :=
      outerAux_eqzero_ok rng lr hlr n.toNat 0
        { position_vec := (List.range m.toNat).map rng.init, alpha := alpha,
          alpha_buffer := [], dE_da_buffer := [], E_buffer := [],
          warns := [Warn.eqStepsZero] }
    refine ⟨{ position_vec := s'.position_vec, alpha := s'.alpha,
              alpha_buffer := s'.alpha_buffer, E_buffer := s'.E_buffer,
              dE_da_buffer := s'.dE_da_buffer,
              initial_pos := (List.range m.toNat).map rng.init,
              warns := s'.warns }, ?_, ?_, ?_, ?_, ?_⟩
    · rw [show ((0 : ℤ).toNat) = 0 from rfl, hs']
      rfl
    · exact hw Warn.eqStepsZero (by simp)
    · simpa using hla
    · simpa using hld
    · simpa using hle

/-- Concrete instance of claim C7: one walker initialized at 0 with one
equilibration sweep aborts the whole run with the division-by-zero
ValueError. -/
theorem divzero_abort_witness :
    metropolis zeroInitRNG (.int 1) (.int 1) (.int 1) 1 0 =
      .error .divByZero :=
  divzero_abort_spec.2.2 zeroInitRNG 1 1 1 1 0 0 (by norm_num) (by norm_num)
    (by norm_num) (by norm_num) (by norm_num [zeroInitRNG]) (by norm_num)
    (by norm_num)

/-- Concrete instance of claim C6: `equilibration_steps = 0` with one
walker and one outer step warns but completes, yielding trajectories of
length `numsteps = 1`. -/
theorem metropolis_validation_witness :
    ∃ r, metropolis constRNG (.int 0) (.int 1) (.int 1) 1 0 = .ok r ∧
      Warn.eqStepsZero ∈ r.warns ∧
      r.alpha_buffer.length = (1 : ℤ).toNat ∧
      r.dE_da_buffer.length = (1 : ℤ).toNat ∧
      r.E_buffer.length = (1 : ℤ).toNat :=
  (metropolis_validation_spec constRNG (.int 0) (.int 1) (.int 1) 1 0).2.2.2
    1 1 rfl rfl rfl (by norm_num) (by norm_num) (by norm_num)

/-- Case analysis of one equilibration sweep from an all-positive
ensemble, with nonnegative acceptance draws: the sweep either fails on
the alpha range check inside the wavefunction evaluation, or succeeds
with an ensemble that is again all-positive — a proposal at a
nonpositive position has wavefunction value 0, hence acceptance ratio 0,
which never exceeds a nonnegative uniform draw, so it is rejected. -/
theorem oneSweep_cases (rng : RNG) (a : ℝ) (j i : ℕ) (pos : List ℝ)
    (hu : ∀ k, 0 ≤ rng.unif j i k) (hpos : ∀ x ∈ pos, 0 < x) :
    (oneSweep rng a j i pos = .error .alphaTooNegative ∨
     oneSweep rng a j i pos = .error .alphaTooLarge) ∨
    ∃ pos', oneSweep rng a j i pos = .ok pos' ∧ ∀ x ∈ pos', 0 < x := by
  by_cases h1 : a < -1000
  · left; left
    have herr : trial_wavefunction pos (.float a) = .error .alphaTooNegative :=
      ((wavefunction_validation_spec pos (.float a)).2.1 rfl h1).1
    rw [oneSweep, herr]
    rfl
  · by_cases h2 : 200 < a
    · left; right
      have herr : trial_wavefunction pos (.float a) = .error .alphaTooLarge :=
        ((wavefunction_validation_spec pos (.float a)).2.2 rfl h2).1
      rw [oneSweep, herr]
      rfl
    · right
      have hok := trial_wavefunction_ok pos a (le_of_not_lt h1) (le_of_not_lt h2)
      have hok' := trial_wavefunction_ok (propose rng j i pos) a
        (le_of_not_lt h1) (le_of_not_lt h2)
      have hnot : (0 : ℝ) ∉ wfVals pos a := zero_not_mem_wfVals pos a hpos
      rw [oneSweep, hok, hok']
      simp only [bind, Except.bind]
      rw [if_neg hnot]
      refine ⟨_, rfl, ?_⟩
      intro y hy
      rw [List.mem_iff_getElem] at hy
      obtain ⟨k, hk, hky⟩ := hy
      have hkpos : k < pos.length := by
        simp only [List.length_zipWith, List.length_zip, List.length_map,
          List.length_range, propose, wfVals] at hk
        omega
      have hknew : k < (propose rng j i pos).length := by
        simp only [propose, List.length_zipWith, List.length_range]
        omega
      simp only [wfVals, List.getElem_zipWith, List.getElem_zip,
        List.getElem_map, List.getElem_range] at hky
      by_cases hnewk : 0 < (propose rng j i pos)[k]
      · rw [← hky]
        split
        · exact hnewk
        · exact hpos _ (List.getElem_mem hkpos)
      · rw [wfVal_nonpos a _ hnewk, zero_div,
          if_neg (not_lt.2 (hu k))] at hky
        rw [← hky]
        exact hpos _ (List.getElem_mem hkpos)

/-- The equilibration loop started from an all-positive ensemble never
reaches the division-by-zero error, and preserves positivity of every
walker position whenever it succeeds. -/
theorem sweepsAux_pos (rng : RNG) (a : ℝ) (j : ℕ)
    (hu : ∀ i k, 0 ≤ rng.unif j i k) :
    ∀ (rem i : ℕ) (pos : List ℝ), (∀ x ∈ pos, 0 < x) →
      sweepsAux rng a j i rem pos ≠ .error .divByZero ∧
      ∀ pos', sweepsAux rng a j i rem pos = .ok pos' → ∀ x ∈ pos', 0 < x := by
  intro rem
  induction rem with
  | zero =>
      intro i pos hpos
      refine ⟨by rw [sweepsAux]; simp, fun pos' h => ?_⟩
      rw [sweepsAux] at h
      obtain rfl : pos = pos' := by simpa using h
      exact hpos
  | succ rem ih =>
      intro i pos hpos
      rcases oneSweep_cases rng a j i pos (hu i) hpos with (h | h) | ⟨pos1, hok, hpos1⟩
      · rw [sweepsAux_error rng a j i rem pos _ h]
        exact ⟨by simp, fun pos' h' => absurd h' (by simp)⟩
      · rw [sweepsAux_error rng a j i rem pos _ h]
        exact ⟨by simp, fun pos' h' => absurd h' (by simp)⟩
      · rw [sweepsAux, hok]
        simp only [bind, Except.bind]
        exact ih (i + 1) pos1 hpos1

/-- The outer measurement loop started from an all-positive ensemble
never reaches the division-by-zero error, and its final ensemble is
all-positive whenever it succeeds. -/
theorem outerAux_pos (rng : RNG) (eqs : ℕ) (lr : ℝ)
    (hu : ∀ j i k, 0 ≤ rng.unif j i k) :
    ∀ (rem j : ℕ) (s : OuterState), (∀ x ∈ s.position_vec, 0 < x) →
      outerAux rng eqs lr j rem s ≠ .error .divByZero ∧
      ∀ s', outerAux rng eqs lr j rem s = .ok s' →
        ∀ x ∈ s'.position_vec, 0 < x := by
  intro rem
  induction rem with
  | zero =>
      intro j s hs
      refine ⟨by rw [outerAux]; simp, fun s' h => ?_⟩
      rw [outerAux] at h
      obtain rfl : s = s' := by simpa using h
      exact hs
  | succ rem ih =>
      intro j s hs
      have hsw := sweepsAux_pos rng s.alpha j (hu j) eqs 0 s.position_vec hs
      cases hE : equilibrate rng s.alpha j eqs s.position_vec with
      | error e =>
          have hne : e ≠ .divByZero := by
            intro hcontra
            exact hsw.1 (by rw [equilibrate] at hE; rw [← hcontra]; exact hE)
          rw [outerAux_error rng eqs lr j rem s e hE]
          refine ⟨by simpa using hne, fun s' h' => absurd h' (by simp)⟩
      | ok pos1 =>
          have hpos1 : ∀ x ∈ pos1, 0 < x := hsw.2 pos1 (by rw [← equilibrate]; exact hE)
          rw [outerAux, hE]
          simp only [bind, Except.bind]
          by_cases hlr : lr < 0
          · rw [((alpha_opt_spec pos1 s.alpha lr).1 hlr).1]
            exact ⟨by simp [bind, Except.bind], fun s' h' => absurd h' (by simp [bind, Except.bind])⟩
          · rw [(alpha_opt_spec pos1 s.alpha lr).2.2 (le_of_not_lt hlr)]
            exact ih (j + 1) _ hpos1

/-- Claim C10: with initial draws in `[2, 3)` and acceptance draws in
`[0, 1)` — the distributions the source draws from — every walker
position stays strictly positive in exact real arithmetic: one sweep
from an all-positive ensemble never takes the division-by-zero branch
and returns an all-positive ensemble (a nonpositive proposal has
wavefunction value 0, so its acceptance ratio 0 never exceeds the
uniform draw); consequently `metropolis` can never return the
division-by-zero error, and on success its final ensemble — the
positions fed to the local-energy evaluator — and its initial snapshot
are all strictly positive (hence nonzero). -/
theorem positivity_invariant_spec (rng : RNG)
    (hinit : ∀ k, 2 ≤ rng.init k ∧ rng.init k < 3)
    (hunif : ∀ j i k, 0 ≤ rng.unif j i k ∧ rng.unif j i k < 1) :
    (∀ (a : ℝ) (j i : ℕ) (pos : List ℝ), (∀ x ∈ pos, 0 < x) →
      oneSweep rng a j i pos ≠ .error .divByZero ∧
      ∀ pos', oneSweep rng a j i pos = .ok pos' → ∀ x ∈ pos', 0 < x) ∧
    (∀ (eqs ns nw : PyVal) (a lr : ℝ),
      metropolis rng eqs ns nw a lr ≠ .error .divByZero ∧
      ∀ r, metropolis rng eqs ns nw a lr = .ok r →
        (∀ x ∈ r.position_vec, 0 < x) ∧ ∀ x ∈ r.initial_pos, 0 < x) := by
  constructor
  · intro a j i pos hpos
    rcases oneSweep_cases rng a j i pos (fun k => (hunif j i k).1) hpos with
      (h | h) | ⟨pos', hok, hpos'⟩
    · rw [h]
      exact ⟨by simp, fun pos' h' => absurd h' (by simp)⟩
    · rw [h]
      exact ⟨by simp, fun pos' h' => absurd h' (by simp)⟩
    · rw [hok]
      refine ⟨by simp, fun pos'' h' => ?_⟩
      obtain rfl : pos' = pos'' := by simpa using h'
      exact hpos'
  · intro eqs ns nw a lr
    by_cases h1 : ¬ (eqs.isInt = true ∧ ns.isInt = true ∧ nw.isInt = true)
    · rw [metropolis, if_pos h1]
      exact ⟨by simp, fun r h' => absurd h' (by simp)⟩
    by_cases h2 : ns.toInt ≤ 0 ∨ nw.toInt ≤ 0
    · rw [metropolis, if_neg h1, if_pos h2]
      exact ⟨by simp, fun r h' => absurd h' (by simp)⟩
    by_cases h3 : eqs.toInt < 0
    · rw [metropolis, if_neg h1, if_neg h2, if_pos h3]
      exact ⟨by simp, fun r h' => absurd h' (by simp)⟩
    rw [metropolis, if_neg h1, if_neg h2, if_neg h3]
    dsimp only
    have hpos0 : ∀ x ∈ (List.range nw.toInt.toNat).map rng.init, 0 < x := by
      intro x hx
      rw [List.mem_map] at hx
      obtain ⟨k, _, rfl⟩ := hx
      linarith [(hinit k).1]
    have H := outerAux_pos rng eqs.toInt.toNat lr
      (fun j i k => (hunif j i k).1) ns.toInt.toNat 0
      { position_vec := (List.range nw.toInt.toNat).map rng.init,
        alpha := a, alpha_buffer := [], dE_da_buffer := [], E_buffer := [],
        warns := if eqs.toInt = 0 then [Warn.eqStepsZero] else [] }
      hpos0
    cases hX : outerAux rng eqs.toInt.toNat lr 0 ns.toInt.toNat
        { position_vec := (List.range nw.toInt.toNat).map rng.init,
          alpha := a, alpha_buffer := [], dE_da_buffer := [], E_buffer := [],
          warns := if eqs.toInt = 0 then [Warn.eqStepsZero] else [] } with
    | error e =>
        have hne : e ≠ .divByZero := fun hc => H.1 (by rw [← hc]; exact hX)
        exact ⟨by simpa [Except.map] using hne,
          fun r h' => absurd h' (by simp [Except.map])⟩
    | ok s' =>
        refine ⟨by simp [Except.map], fun r h' => ?_⟩
        simp only [Except.map] at h'
        rw [Except.ok.injEq] at h'
        subst h'
        exact ⟨H.2 s' hX, hpos0⟩

/-- Claim C8 (code bug): the proposal step of `metropolis` always scales
the Gaussian displacement by the fixed constant 0.1 — it coincides with
the spec-modelled step_size-scaled proposal exactly at step_size = 1/10
and differs from it at step_size = 0.15 (the value exercised by the
repository's own configuration test), as shown at the concrete ensemble
`[2]` with a unit Gaussian draw. `metropolis` itself takes no step_size
argument at all, although its caller `main.py` passes one. -/
theorem step_size_hardcoded :
    (∀ (rng : RNG) (j i : ℕ) (pos : List ℝ),
      propose rng j i pos = proposeWithStepSize rng (1 / 10) j i pos) ∧
    propose gaussOneRNG 0 0 [2] = [2 + 1 / 10] ∧
    proposeWithStepSize gaussOneRNG (15 / 100) 0 0 [2] = [2 + 15 / 100] ∧
    propose gaussOneRNG 0 0 [2] ≠
      proposeWithStepSize gaussOneRNG (15 / 100) 0 0 [2] := by
  have hr1 : List.range 1 = [0] := rfl
  have h1 : propose gaussOneRNG 0 0 [2] = [2 + 1 / 10] := by
    simp only [propose, gaussOneRNG, List.length_cons, List.length_nil,
      hr1, List.zipWith_cons_cons, List.zipWith_nil_right]
    norm_num
  have h2 : proposeWithStepSize gaussOneRNG (15 / 100) 0 0 [2] =
      [2 + 15 / 100] := by
    simp only [proposeWithStepSize, gaussOneRNG, List.length_cons,
      List.length_nil, hr1, List.zipWith_cons_cons,
      List.zipWith_nil_right]
    norm_num
  refine ⟨fun rng j i pos => ?_, h1, h2, ?_⟩
  · have h01 : (0.1 : ℝ) = 1 / 10 := by norm_num
    rw [propose, proposeWithStepSize]
    simp only [h01]
  · rw [h1, h2]
    intro h
    rw [List.cons.injEq] at h
    have := h.1
    norm_num at this

/-- Concrete instance of claim C10: with in-range random draws, a run
with one walker, one outer step and one equilibration sweep cannot
return the division-by-zero error. -/
theorem positivity_invariant_witness :
    metropolis constRNG (.int 1) (.int 1) (.int 1) 1 0 ≠
      .error .divByZero :=
  ((positivity_invariant_spec constRNG
      (fun k => ⟨by norm_num [constRNG], by norm_num [constRNG]⟩)
      (fun j i k => ⟨by norm_num [constRNG], by norm_num [constRNG]⟩)).2
    (.int 1) (.int 1) (.int 1) 1 0).1

end VMC
